import Mathlib

/-!
Shallow embedding of the EUDR GIS auditor core
(`app/gis_processing/validation.py`, `app/gis_processing/transformations.py`,
`app/gis_processing/core.py`) and proofs about the spec's claims.

Geometric primitives that the Python code delegates to the external OGR/GEOS
library (`IsValid`, `Buffer(0)`, `SimplifyPreserveTopology`, the projected-area
computation) are modelled as oracle functions bundled in `GeomOps`: the
repository's decision logic never inspects their internals, only their results.
`Centroid` is given a concrete executable model (vertex average) because one
claim needs its bounding-extent property.  Coordinates are rationals.
-/

namespace EudrGis

/-- A 2-D vertex (longitude/latitude pair). -/
structure GPoint where
  x : ℚ
  y : ℚ
deriving DecidableEq, Repr

/-- Model of an `ogr.Geometry` value.  `typeCode` is the full OGR geometry type
code (the code masks it with `0xff` to get the base type); `isEmptyFlag` and
`isValidFlag` record the library's `IsEmpty()` / `IsValid()` answers;
`pts` is the vertex list for point/line-like types (`GetPointCount` /
`GetPoint_2D`), `children` the sub-geometry list for polygon rings and
multi-geometry parts (`GetGeometryCount` / `GetGeometryRef`). -/
inductive Geometry where
  | mk (typeCode : Nat) (isEmptyFlag : Bool) (isValidFlag : Bool)
      (pts : List GPoint) (children : List Geometry)
deriving Repr

/-- Accessor for `GetGeometryType()` (full, unmasked code). -/
def Geometry.typeCode : Geometry → Nat
  | .mk t _ _ _ _ => t

/-- Accessor for `IsEmpty()`. -/
def Geometry.isEmptyFlag : Geometry → Bool
  | .mk _ e _ _ _ => e

/-- Accessor for `IsValid()`. -/
def Geometry.isValidFlag : Geometry → Bool
  | .mk _ _ v _ _ => v

/-- The vertex list of a point/line-like geometry. -/
def Geometry.pts : Geometry → List GPoint
  | .mk _ _ _ p _ => p

/-- The sub-geometries (rings of a polygon, parts of a multi-geometry). -/
def Geometry.children : Geometry → List Geometry
  | .mk _ _ _ _ c => c

/-- Computes `GetGeometryType() & 0x000000ff`, the masked base type used throughout the
code. -/
def Geometry.baseType (g : Geometry) : Nat := g.typeCode % 256

/-- OGR type code `ogr.wkbPoint`. -/
def wkbPoint : Nat := 1

/-- OGR type code `ogr.wkbLineString`. -/
def wkbLineString : Nat := 2

/-- OGR type code `ogr.wkbPolygon`. -/
def wkbPolygon : Nat := 3

/-- OGR type code `ogr.wkbMultiPoint`. -/
def wkbMultiPoint : Nat := 4

/-- OGR type code `ogr.wkbMultiLineString`. -/
def wkbMultiLineString : Nat := 5

/-- OGR type code `ogr.wkbMultiPolygon`. -/
def wkbMultiPolygon : Nat := 6

/-- An attribute value of a feature field, mirroring the Python value kinds the
code distinguishes with `isinstance` (`str`, `int`/`float`, unset/`None`). -/
inductive FieldValue where
  | str (s : String)
  | intVal (n : ℤ)
  | real (q : ℚ)
  | null
deriving DecidableEq, Repr

/-- Python `str(value)` as used in the attribute-audit message.  The exact
rendering of numerics is immaterial to every claim. -/
def FieldValue.pyStr : FieldValue → String
  | .str s => s
  | .intVal n => toString n
  | .real q => toString q
  | .null => "None"

/-- One input feature: its `qa_assistant_id` field, its other named attributes,
and its (possibly absent) geometry (`GetGeometryRef` may return `None`). -/
structure Feature where
  qa_id : String
  props : List (String × FieldValue)
  geom : Option Geometry

/-- Association-list lookup, modelling Python `dict.get` /
`ogr.Feature.GetFieldIndex`-then-`GetField`. -/
def lookupStore {α : Type} (l : List (String × α)) (k : String) : Option α :=
  (l.find? (fun kv => kv.1 == k)).map (fun kv => kv.2)

/-! ### Constants from `validation.py` -/

/-- Constant `validation.ID_FIELD_NAME`. -/
def ID_FIELD_NAME : String := "qa_assistant_id"

/-- Constant `validation.MIN_AREA_HA_FOR_POLYGON`. -/
def MIN_AREA_HA_FOR_POLYGON : ℚ := 4

/-- Constant `validation.METERS_SQ_PER_HECTARE`. -/
def METERS_SQ_PER_HECTARE : ℚ := 10000

/-- Constant `validation.SIMPLIFY_TOLERANCE`. -/
def SIMPLIFY_TOLERANCE : ℚ := 1 / 10000

/-- Constant `validation.OPTIONAL_FIELDS`. -/
def OPTIONAL_FIELDS : List String := ["ProductionPlace", "ProducerName", "ProducerCountry", "Area"]

/-- Constant `validation.VALID_ISO2_CODES`. -/
def VALID_ISO2_CODES : List String := [
  "AD", "AE", "AF", "AG", "AI", "AL", "AM", "AO", "AQ", "AR", "AS", "AT", "AU", "AW", "AX", "AZ", "BA", "BB",
  "BD", "BE", "BF", "BG", "BH", "BI", "BJ", "BL", "BM", "BN", "BO", "BQ", "BR", "BS", "BT", "BV", "BW", "BY",
  "BZ", "CA", "CC", "CD", "CF", "CG", "CH", "CI", "CK", "CL", "CM", "CN", "CO", "CR", "CU", "CV", "CW", "CX",
  "CY", "CZ", "DE", "DJ", "DK", "DM", "DO", "DZ", "EC", "EE", "EG", "EH", "ER", "ES", "ET", "FI", "FJ", "FK",
  "FM", "FO", "FR", "GA", "GB", "GD", "GE", "GF", "GG", "GH", "GI", "GL", "GM", "GN", "GP", "GQ", "GR", "GS",
  "GT", "GU", "GW", "GY", "HK", "HM", "HN", "HR", "HT", "HU", "ID", "IE", "IL", "IM", "IN", "IO", "IQ", "IR",
  "IS", "IT", "JE", "JM", "JO", "JP", "KE", "KG", "KH", "KI", "KM", "KN", "KP", "KR", "KW", "KY", "KZ", "LA",
  "LB", "LC", "LI", "LK", "LS", "LT", "LU", "LV", "LY", "MA", "MC", "MD", "ME", "MF", "MG", "MH", "MK",
  "ML", "MM", "MN", "MO", "MP", "MQ", "MR", "MS", "MT", "MU", "MV", "MW", "MX", "MY", "MZ", "NA", "NC", "NE",
  "NF", "NG", "NI", "NL", "NO", "NP", "NR", "NU", "NZ", "OM", "PA", "PE", "PF", "PG", "PH", "PK", "PL", "PM",
  "PN", "PR", "PS", "PT", "PW", "PY", "QA", "RE", "RO", "RS", "RU", "RW", "SA", "SB", "SC", "SD", "SE", "SG",
  "SH", "SI", "SJ", "SK", "SL", "SM", "SN", "SO", "SR", "SS", "ST", "SV", "SX", "SY", "SZ", "TC", "TD", "TF",
  "TG", "TH", "TJ", "TK", "TL", "TM", "TN", "TO", "TR", "TT", "TV", "TW", "TZ", "UA", "UG", "UM", "US", "UY",
  "UZ", "VA", "VC", "VE", "VG", "VI", "VN", "VU", "WF", "WS", "YE", "YT", "ZA", "ZM", "ZW"]

/-! ### `validation.py` functions -/

mutual

/-- Embeds `validation.get_all_points`: depth-first extraction of all vertices.
Rings of a polygon report `wkbLineString` as their base type in OGR, so the
recursion reaches their vertices through the line-type branch. -/
def get_all_points : Geometry → List GPoint
  | .mk t _ _ pts children =>
    let geom_type := t % 256
    if geom_type = wkbPoint ∨ geom_type = wkbMultiPoint ∨
        geom_type = wkbLineString ∨ geom_type = wkbMultiLineString then pts
    else if geom_type = wkbPolygon ∨ geom_type = wkbMultiPolygon then
      get_all_points_list children
    else []

/-- Helper for `get_all_points`: the loop over `GetGeometryRef(i)`. -/
def get_all_points_list : List Geometry → List GPoint
  | [] => []
  | g :: gs => get_all_points g ++ get_all_points_list gs

end

/-- The bounds test `-180.0 <= lon <= 180.0 and -90.0 <= lat <= 90.0` used both
for vertices and for centroids. -/
def inGeoBounds (lon lat : ℚ) : Bool :=
  decide (-180 ≤ lon ∧ lon ≤ 180 ∧ -90 ≤ lat ∧ lat ≤ 90)

/-- Python fixed-point formatting `f"{q:.<prec>f}"` on an exact rational
(rounding to nearest; the tie-breaking of binary floats is not observable in
any claim). -/
def formatQFixed (prec : Nat) (q : ℚ) : String :=
  let scaled : ℤ := round (q * (10 : ℚ) ^ prec)
  let sign := if scaled < 0 then "-" else ""
  let n := scaled.natAbs
  let fs := toString (n % 10 ^ prec)
  sign ++ toString (n / 10 ^ prec) ++ "." ++
    String.mk (List.replicate (prec - fs.length) '0') ++ fs

/-- Embeds `validation.validate_geometry_vertices`: every vertex must lie inside the
geographic bounds; the first offending vertex (in depth-first order) is
reported. -/
def validate_geometry_vertices (geom : Option Geometry) : Bool × String :=
  match geom with
  | none => (true, "")
  | some g =>
    if g.isEmptyFlag then (true, "")
    else
      match (get_all_points g).find? (fun p => !(inGeoBounds p.x p.y)) with
      | some p =>
        (false, "Invalid coordinate range: [" ++ formatQFixed 5 p.x ++ ", " ++
          formatQFixed 5 p.y ++ "]")
      | none => (true, "")

/-- Embeds `validation.check_optional_properties`: per-feature audit of the optional
EUDR attributes, joined with "; ". -/
def check_optional_properties (f : Feature) : String :=
  let notes := OPTIONAL_FIELDS.map (fun field_name =>
    match lookupStore f.props field_name with
    | none => "Not included"
    | some value =>
      if field_name == "ProducerCountry" then
        match value with
        | .str s =>
          if VALID_ISO2_CODES.contains s.toUpper then "OK"
          else "Invalid value: '" ++ s ++ "'"
        | v => "Invalid value: '" ++ v.pyStr ++ "'"
      else if field_name == "Area" then
        match value with
        | .intVal _ => "OK"
        | .real _ => "OK"
        | _ => "Invalid data type"
      else "OK")
  String.intercalate "; " notes

/-- Embeds `validation.summarize_attribute_status`: dataset-level rollup of the
per-feature attribute notes. -/
def summarize_attribute_status (all_notes : List String) : String :=
  if all_notes.isEmpty then "N/A"
  else
    let has_issues := all_notes.any (fun note => (note.splitOn "Invalid").length > 1)
    let all_ok := all_notes.all (fun note => note == "OK; OK; OK; OK")
    if all_ok then "All optional attributes valid"
    else if has_issues then "Attribute issues found"
    else "Some attributes not included"

/-! ### External geometry-library oracles -/

/-- The OGR/GEOS primitives the code calls but whose internals it never
inspects.  `buffer0 g` is `g.Buffer(0)` (`none` models a null return);
`simplifyPT g tol` is `g.SimplifyPreserveTopology(tol)`; `transformArea g z n`
is the planar area (m²) of a clone of `g` transformed into UTM zone `z`
(northern hemisphere when `n`), with `none` modelling the `RuntimeError` the
code catches. -/
structure GeomOps where
  buffer0 : Geometry → Option Geometry
  simplifyPT : Geometry → ℚ → Geometry
  transformArea : Geometry → ℤ → Bool → Option ℚ

/-- Models the external `Geometry.Centroid()` primitive as the average of the
geometry's vertices, failing (`none`, a null centroid) when no vertex can be
extracted.  Only its bounding-extent behaviour is relied upon by any claim. -/
def centroidModel (g : Geometry) : Option GPoint :=
  match get_all_points g with
  | [] => none
  | p :: ps =>
    let all := p :: ps
    some ⟨((all.map GPoint.x).sum) / all.length, ((all.map GPoint.y).sum) / all.length⟩

/-! ### `transformations.py` functions -/

/-- Embeds `transformations.get_area_in_hectares`: `0.0` for missing/empty geometry;
otherwise centroid, geographic-bounds gate, UTM zone `int((lon+180)/6)+1`
(truncation equals `⌊·⌋` here since `lon+180 ≥ 0` inside the gate), hemisphere
by `lat >= 0`, then projected planar area divided by 10000, with `none` when
the centroid is null, out of bounds, or the transform raises. -/
def get_area_in_hectares (ops : GeomOps) (geom : Option Geometry) : Option ℚ :=
  match geom with
  | none => some 0
  | some g =>
    if g.isEmptyFlag then some 0
    else
      match centroidModel g with
      | none => none
      | some c =>
        if inGeoBounds c.x c.y then
          let utm_zone : ℤ := ⌊(c.x + 180) / 6⌋ + 1
          match ops.transformArea g utm_zone (decide ((0 : ℚ) ≤ c.y)) with
          | none => none
          | some a => some (a / METERS_SQ_PER_HECTARE)
        else none

/-- Embeds `transformations.validate_and_fix_geometry`.  Note: the source rebinds its
local `geom` to the repaired (`geom = fixed_geom`) or simplified geometry and
then returns only the `(bool, str, action)` triple, so the rebound geometry is
never visible to the caller; the embedding therefore returns the same triple
and nothing else. -/
def validate_and_fix_geometry (ops : GeomOps) (geom : Option Geometry)
    (autofix simplify : Bool) : Bool × String × Option String :=
  match geom with
  | none => (false, "Missing or empty geometry", none)
  | some g =>
    if g.isEmptyFlag then (false, "Missing or empty geometry", none)
    else
      let geom_type := g.baseType
      if geom_type = wkbLineString ∨ geom_type = wkbMultiLineString then
        (false, "Invalid geometry type (LineString)", none)
      else if !g.isValidFlag then
        if autofix then
          match ops.buffer0 g with
          | some fixed_geom =>
            if !fixed_geom.isEmptyFlag && fixed_geom.isValidFlag then
              (true, "Valid", some "Auto-fixed")
            else (false, "Invalid geometry (unfixable)", none)
          | none => (false, "Invalid geometry (unfixable)", none)
        else (false, "Invalid geometry", none)
      else if geom_type = wkbPolygon ∧ g.children.length > 1 then
        (false, "Polygon with holes not supported", none)
      else
        match validate_geometry_vertices (some g) with
        | (false, reason) => (false, reason, none)
        | (true, _) =>
          if simplify ∧ geom_type = wkbPolygon then
            let _ := ops.simplifyPT g SIMPLIFY_TOLERANCE
            (true, "Valid", some "Simplified")
          else (true, "Valid", none)

/-- One detailed-report row (`detailed_rows.append({...})` in
`partition_and_process_dataset`, also the rows of the detail-ledger CSV). -/
structure DetailRow where
  original_filename : String
  qa_assistant_id : String
  final_status : String
  action_taken : String
  reason_notes : String
  attribute_status : String
deriving DecidableEq, Repr

/-- The per-dataset `stats` dictionary. -/
structure Stats where
  total : Nat
  valid_large : Nat
  review : Nat
  autofixed : Nat
  candidates : Nat
deriving DecidableEq, Repr

/-- A feature written to one of the three output buckets: built by
`SetFrom(in_feature)` (which copies attributes and geometry), `SetGeometry`,
and, on the review path, the extra `qa_issue` field. -/
structure OutFeature where
  qa_id : String
  props : List (String × FieldValue)
  geom : Option Geometry
  qa_issue : Option String

/-- Which bucket layer a feature's `CreateFeature` call targets. -/
inductive Route where
  | review
  | candidate
  | valid
deriving DecidableEq, Repr

/-- The result of one iteration of the feature loop in
`partition_and_process_dataset`: the classification action, the chosen bucket,
the detailed row, and the output feature written to that bucket. -/
structure FeatureOutcome where
  action : Option String
  route : Route
  row : DetailRow
  out : OutFeature

/-- The body of the feature loop of
`transformations.partition_and_process_dataset` (lines 73-149), for one input
feature.  The `geom` used for the area computation and for `SetGeometry` is
`in_feature.GetGeometryRef()` — the original geometry, since
`validate_and_fix_geometry` does not return its repaired/simplified rebinding.
In the accepted branch `f.geom` is necessarily present (missing geometry was
rejected), so the `none` fallback of the `geom_type` read is unreachable. -/
def process_feature_outcome (ops : GeomOps) (dataset_stem : String)
    (simplify autofix identify_candidates : Bool) (f : Feature) : FeatureOutcome :=
  let attribute_status := check_optional_properties f
  let r := validate_and_fix_geometry ops f.geom autofix simplify
  let is_valid := r.1
  let reason := r.2.1
  let action_taken := r.2.2
  if !is_valid then
    { action := action_taken, route := .review,
      row := { original_filename := dataset_stem ++ ".geojson", qa_assistant_id := f.qa_id,
               final_status := "Requires Review",
               action_taken := action_taken.getD "Segregated",
               reason_notes := reason, attribute_status := attribute_status },
      out := { qa_id := f.qa_id, props := f.props, geom := f.geom, qa_issue := some reason } }
  else
    match get_area_in_hectares ops f.geom with
    | none =>
      { action := action_taken, route := .review,
        row := { original_filename := dataset_stem ++ ".geojson", qa_assistant_id := f.qa_id,
                 final_status := "Requires Review",
                 action_taken := action_taken.getD "Segregated",
                 reason_notes := "Could not calculate area", attribute_status := attribute_status },
        out := { qa_id := f.qa_id, props := f.props, geom := f.geom,
                 qa_issue := some "Could not calculate area" } }
    | some area_ha =>
      let geom_type := (f.geom.map Geometry.baseType).getD 0
      if identify_candidates ∧ geom_type = wkbPolygon ∧ area_ha < MIN_AREA_HA_FOR_POLYGON then
        { action := action_taken, route := .candidate,
          row := { original_filename := dataset_stem ++ ".geojson", qa_assistant_id := f.qa_id,
                   final_status := "Candidate for Conversion",
                   action_taken := action_taken.getD "Identified",
                   reason_notes := "Area is " ++ formatQFixed 2 area_ha ++ " ha (< 4ha)",
                   attribute_status := attribute_status },
          out := { qa_id := f.qa_id, props := f.props, geom := f.geom, qa_issue := none } }
      else
        { action := action_taken, route := .valid,
          row := { original_filename := dataset_stem ++ ".geojson", qa_assistant_id := f.qa_id,
                   final_status := "Valid",
                   action_taken := action_taken.getD "N/A",
                   reason_notes := "Valid", attribute_status := attribute_status },
          out := { qa_id := f.qa_id, props := f.props, geom := f.geom, qa_issue := none } }

/-- The mutable state of `partition_and_process_dataset`: the stats
dictionary, the detailed rows, and the three output layers. -/
structure PartitionState where
  stats : Stats
  detailed_rows : List DetailRow
  review_out : List OutFeature
  candidates_out : List OutFeature
  valid_out : List OutFeature

/-- The fresh state at the top of `partition_and_process_dataset`. -/
def initPartitionState : PartitionState :=
  { stats := ⟨0, 0, 0, 0, 0⟩, detailed_rows := [], review_out := [],
    candidates_out := [], valid_out := [] }

/-- One iteration of the feature loop: bump `total`, bump `autofixed` when the
classification action was `"Auto-fixed"`, then route the outcome to exactly one
bucket, appending its detailed row. -/
def process_one_feature (ops : GeomOps) (dataset_stem : String)
    (simplify autofix identify_candidates : Bool)
    (st : PartitionState) (f : Feature) : PartitionState :=
  let oc := process_feature_outcome ops dataset_stem simplify autofix identify_candidates f
  let afx := if oc.action == some "Auto-fixed" then 1 else 0
  match oc.route with
  | .review =>
    { st with
      stats := { st.stats with
                  total := st.stats.total + 1
                  autofixed := st.stats.autofixed + afx
                  review := st.stats.review + 1 },
      detailed_rows := st.detailed_rows ++ [oc.row],
      review_out := st.review_out ++ [oc.out] }
  | .candidate =>
    { st with
      stats := { st.stats with
                  total := st.stats.total + 1
                  autofixed := st.stats.autofixed + afx
                  candidates := st.stats.candidates + 1 },
      detailed_rows := st.detailed_rows ++ [oc.row],
      candidates_out := st.candidates_out ++ [oc.out] }
  | .valid =>
    { st with
      stats := { st.stats with
                  total := st.stats.total + 1
                  autofixed := st.stats.autofixed + afx
                  valid_large := st.stats.valid_large + 1 },
      detailed_rows := st.detailed_rows ++ [oc.row],
      valid_out := st.valid_out ++ [oc.out] }

/-- Embeds `transformations.partition_and_process_dataset`, as the fold of the feature
loop over the dataset's features (the layer/field bookkeeping, which no claim
touches, is not modelled). -/
def partition_and_process_dataset (ops : GeomOps) (features : List Feature)
    (dataset_stem : String) (simplify autofix identify_candidates : Bool) : PartitionState :=
  features.foldl (process_one_feature ops dataset_stem simplify autofix identify_candidates)
    initPartitionState

/-! ### `validation.validate_global_crs` and the dataset gate of
`core.EudrGisQaAssistant.run` -/

/-- Model of an `osr.SpatialReference`: `srsDefinition` stands for the full
spatial-reference definition (datum, ellipsoid, axis mapping, projection);
`epsgCode` for the EPSG authority code alone.  `IsSame` below compares the
full definition and ignores the authority code, as OSR's `IsSame` does. -/
structure SpatialReference where
  srsDefinition : String
  epsgCode : Option Nat
deriving DecidableEq, Repr

/-- Embeds `osr.SpatialReference.IsSame`: strict equivalence of the complete
spatial-reference definitions, not a mere EPSG-code comparison. -/
def SpatialReference.IsSame (a b : SpatialReference) : Bool :=
  a.srsDefinition == b.srsDefinition

/-- The WGS84 reference built in `validate_global_crs` by
`ImportFromEPSG(4326)` with traditional GIS (lon/lat) axis order. -/
def wgs84_srs : SpatialReference :=
  { srsDefinition := "GEOGCS[WGS84,lon/lat]", epsgCode := some 4326 }

/-- Model of an OGR layer: its declared spatial reference
(`GetSpatialRef`, possibly `None`) and its features. -/
structure Layer where
  srs : Option SpatialReference
  features : List Feature

/-- Model of an OGR data source (`GetLayer` may return `None`). -/
structure DataSource where
  layer : Option Layer

/-- Embeds `validation.validate_global_crs`: `True` iff the layer exists, has a
declared spatial reference, and that reference `IsSame` as WGS84. -/
def validate_global_crs (ds : DataSource) : Bool :=
  match ds.layer with
  | none => false
  | some layer =>
    match layer.srs with
    | none => false
    | some srs => srs.IsSame wgs84_srs

/-- The per-dataset outcome of `core.EudrGisQaAssistant.run` (lines 87-110):
either the dataset is moved aside with summary status `"WRONG_EPSG"` and never
partitioned, or it is partitioned and logged `PROCESSED_CLEAN` /
`PROCESSED_WITH_ISSUES`. -/
structure DatasetOutcome where
  status : String
  partitioned : Option PartitionState

/-- The body of the dataset loop of `core.EudrGisQaAssistant.run` for one
opened dataset: the CRS gate, then partitioning. -/
def run_dataset (ops : GeomOps) (ds : DataSource) (dataset_stem : String)
    (simplify autofix identify_candidates : Bool) : DatasetOutcome :=
  if !validate_global_crs ds then
    { status := "WRONG_EPSG", partitioned := none }
  else
    let features := (ds.layer.map Layer.features).getD []
    let st := partition_and_process_dataset ops features dataset_stem
      simplify autofix identify_candidates
    { status :=
        if st.stats.review > 0 ∨ st.stats.candidates > 0 then "PROCESSED_WITH_ISSUES"
        else "PROCESSED_CLEAN",
      partitioned := some st }

/-! ### `transformations.batch_convert_candidates_to_points`

The filesystem the function works against is modelled as finite maps from
dataset stem to feature lists (a missing key is a missing file) plus the
detail-ledger rows; reads and writes of present files are modelled as
succeeding (the `except` branches for I/O faults are not exercised). -/

/-- A feature as stored in a bucket GeoJSON file: its `properties` mapping and
its geometry (`none` models a geometry JSON that `CreateGeometryFromJson`
rejects). -/
structure JFeature where
  props : List (String × FieldValue)
  geom : Option Geometry

/-- Reads `feature['properties'].get(ID_FIELD_NAME)`, coerced to the only case that
can match a requested identifier string: a present string value. -/
def jfeatId (jf : JFeature) : Option String :=
  match lookupStore jf.props ID_FIELD_NAME with
  | some (.str s) => some s
  | _ => none

/-- The durable state `batch_convert_candidates_to_points` reads and writes:
the candidate-store files, the valid-store files, and the detail ledger. -/
structure ConvStores where
  candidateFiles : List (String × List JFeature)
  validFiles : List (String × List JFeature)
  ledger : List DetailRow

/-- Python `s.split(sep)` for a one-character separator, on character lists. -/
def splitChar (sep : Char) : List Char → List (List Char)
  | [] => [[]]
  | c :: cs =>
    let r := splitChar sep cs
    if c = sep then [] :: r
    else
      match r with
      | [] => [[c]]
      | w :: ws => (c :: w) :: ws

/-- Python `s.split(ab)[0]` for a two-character separator `ab`: the text before
the first occurrence of the separator. -/
def takeBefore2 (a b : Char) : List Char → List Char
  | [] => []
  | [c] => [c]
  | c :: d :: rest =>
    if c = a ∧ d = b then []
    else c :: takeBefore2 a b (d :: rest)

/-- Embeds `original_stem = "_".join(qa_id.split('_')[:-1]).split('-p')[0]`. -/
def derive_stem (qa_id : String) : String :=
  String.mk (takeBefore2 '-' 'p'
    (List.intercalate ['_'] ((splitChar '_' qa_id.data).dropLast)))

/-- One step of building `candidates_by_file`: append the identifier to its
stem's group, creating the group on first sight. -/
def group_step (acc : List (String × List String)) (qa_id : String) :
    List (String × List String) :=
  let stem := derive_stem qa_id
  if acc.any (fun kv => kv.1 == stem) then
    acc.map (fun kv => if kv.1 == stem then (kv.1, kv.2 ++ [qa_id]) else kv)
  else acc ++ [(stem, [qa_id])]

/-- The `candidates_by_file` grouping: requested identifiers grouped by derived
stem, groups ordered by first appearance (Python dict insertion order). -/
def group_by_stem (qa_ids : List String) : List (String × List String) :=
  qa_ids.foldl group_step []

/-- A point geometry as produced by `centroid.ExportToJson()`. -/
def pointGeometry (c : GPoint) : Geometry :=
  .mk wkbPoint false true [c] []

/-- The per-candidate conversion (lines 234-252): reject a missing/empty
geometry or a null centroid; otherwise replace the geometry with the centroid
point and overwrite an existing `Area` property with
`MIN_AREA_HA_FOR_POLYGON`. -/
def convert_feature (jf : JFeature) : Option JFeature :=
  match jf.geom with
  | none => none
  | some g =>
    if g.isEmptyFlag then none
    else
      match centroidModel g with
      | none => none
      | some c =>
        some { jf with
                geom := some (pointGeometry c),
                props :=
                  if jf.props.any (fun kv => kv.1 == "Area") then
                    jf.props.map (fun kv =>
                      if kv.1 == "Area" then (kv.1, FieldValue.real MIN_AREA_HA_FOR_POLYGON)
                      else kv)
                  else jf.props }

/-- What one stem group's pass over its candidate file accumulates: the failed
identifiers, the new point features, and `candidates_to_remove`. -/
structure GroupResult where
  failed : List String
  newPoints : List JFeature
  removed : List String

/-- One iteration of the loop over the candidate file's features: a feature
whose identifier is among the requested ones is converted; a conversion
failure appends the identifier to the failed list. -/
def scan_step (gids : List String) (acc : GroupResult) (jf : JFeature) : GroupResult :=
  match jfeatId jf with
  | some qa_id =>
    if gids.contains qa_id then
      match convert_feature jf with
      | some jf2 =>
        { acc with newPoints := acc.newPoints ++ [jf2], removed := acc.removed ++ [qa_id] }
      | none => { acc with failed := acc.failed ++ [qa_id] }
    else acc
  | none => acc

/-- The loop over the candidate file's features for one stem group. -/
def scan_candidates (gids : List String) (cfeats : List JFeature) : GroupResult :=
  cfeats.foldl (scan_step gids) ⟨[], [], []⟩

/-- One stem group of the first phase: a missing candidate file fails the whole
group (`failed_ids.extend(ids)`); otherwise the candidate file is scanned. -/
def process_group (stores : ConvStores) (stem : String) (gids : List String) : GroupResult :=
  match lookupStore stores.candidateFiles stem with
  | none => ⟨gids, [], []⟩
  | some cfeats => scan_candidates gids cfeats

/-- Replace the value at a key, or append the binding when the key is absent
(writing a bucket file creates it if missing). -/
def updateStore {α : Type} (l : List (String × α)) (k : String) (v : α) : List (String × α) :=
  if l.any (fun kv => kv.1 == k) then
    l.map (fun kv => if kv.1 == k then (kv.1, v) else kv)
  else l ++ [(k, v)]

/-- Kept iff the feature's identifier is not in `candidates_to_remove`
(a feature without a string identifier is always kept). -/
def keepCandidate (removed : List String) (jf : JFeature) : Bool :=
  match jfeatId jf with
  | some s => !removed.contains s
  | none => true

/-- The value `batch_convert_candidates_to_points` returns, together with the
stores it rewrote.  `removed_ids` exposes the concatenated
`candidates_to_remove` lists (the identifiers actually converted), which the
source tracks per group. -/
structure ConvResult where
  converted_count : Nat
  failed_ids : List String
  stores : ConvStores
  removed_ids : List String

/-- The second phase for one stem group with at least one new point: append the
new point features to the valid store and drop the converted features from the
candidate store. -/
def conv_write_step (st : ConvStores) (r : String × GroupResult) : ConvStores :=
  if r.2.newPoints.isEmpty then st
  else
    { st with
      validFiles := updateStore st.validFiles r.1
        (((lookupStore st.validFiles r.1).getD []) ++ r.2.newPoints),
      candidateFiles := updateStore st.candidateFiles r.1
        (((lookupStore st.candidateFiles r.1).getD []).filter (keepCandidate r.2.removed)) }

/-- Embeds `transformations.batch_convert_candidates_to_points`: group the requested
identifiers by derived stem; per group scan the candidate store and convert the
matching features; rewrite the valid and candidate stores of the groups with at
least one new point; finally rewrite every ledger row whose identifier is
requested and not failed to `final_status = "Valid"`,
`action_taken = "Converted to Point"`. -/
def batch_convert_candidates_to_points (stores : ConvStores)
    (qa_ids_to_convert : List String) : ConvResult :=
  let groups := group_by_stem qa_ids_to_convert
  let results := groups.map (fun sg => (sg.1, process_group stores sg.1 sg.2))
  let failed_ids := (results.map (fun r => r.2.failed)).flatten
  let converted_count := (results.map (fun r => r.2.newPoints.length)).sum
  let stores2 := results.foldl conv_write_step stores
  let successfully_converted := qa_ids_to_convert.filter (fun i => !failed_ids.contains i)
  let ledger2 := stores2.ledger.map (fun row =>
    if successfully_converted.contains row.qa_assistant_id then
      { row with final_status := "Valid", action_taken := "Converted to Point" }
    else row)
  { converted_count := converted_count, failed_ids := failed_ids,
    stores := { stores2 with ledger := ledger2 },
    removed_ids := (results.map (fun r => r.2.removed)).flatten }

/-! ## Theorems about the claims -/

/-- A simple oracle bundle for concrete instantiations: `Buffer(0)` returns
null, simplification is the identity, every transform raises. -/
def exOps : GeomOps :=
  { buffer0 := fun _ => none, simplifyPT := fun g _ => g, transformArea := fun _ _ _ => none }

/-- C5: a missing or empty geometry is rejected with reason exactly
"Missing or empty geometry" and no action, for every combination of the
`autofix` and `simplify` flags. -/
theorem missing_geometry_always_rejected (ops : GeomOps) (autofix simplify : Bool) :
    validate_and_fix_geometry ops none autofix simplify
      = (false, "Missing or empty geometry", none) ∧
    ∀ g : Geometry, g.isEmptyFlag = true →
      validate_and_fix_geometry ops (some g) autofix simplify
        = (false, "Missing or empty geometry", none) := by
  refine ⟨rfl, fun g hg => ?_⟩
  simp [validate_and_fix_geometry, hg]

/-- Witness for C5: an empty polygon geometry, with both flags on. -/
theorem missing_geometry_always_rejected_witness :
    validate_and_fix_geometry exOps (some (.mk wkbPolygon true true [] [])) true true
      = (false, "Missing or empty geometry", none) :=
  (missing_geometry_always_rejected exOps true true).2 _ rfl

/-- C9: when `autofix` is on and an invalid (non-line, non-empty) geometry is
repaired by `Buffer(0)` into a non-empty valid geometry, classification accepts
immediately with action "Auto-fixed" — for every repaired geometry (in
particular one with interior rings or out-of-range vertices, which are never
re-checked) and for both values of `simplify` (so simplification is never
applied on top of a repair). -/
theorem autofix_accepts_repair_unconditionally (ops : GeomOps) (g fixed_geom : Geometry)
    (simplify : Bool)
    (hne : g.isEmptyFlag = false)
    (hnl : g.baseType ≠ wkbLineString) (hnml : g.baseType ≠ wkbMultiLineString)
    (hinv : g.isValidFlag = false)
    (hbuf : ops.buffer0 g = some fixed_geom)
    (hfne : fixed_geom.isEmptyFlag = false)
    (hfv : fixed_geom.isValidFlag = true) :
    validate_and_fix_geometry ops (some g) true simplify
      = (true, "Valid", some "Auto-fixed") := by
  simp [validate_and_fix_geometry, hne, hnl, hnml, hinv, hbuf, hfne, hfv]

/-- An invalid polygon (self-intersecting, say) whose repair is accepted. -/
def gC9 : Geometry :=
  .mk wkbPolygon false false [] [.mk wkbLineString false true [⟨0, 0⟩, ⟨1, 0⟩, ⟨0, 1⟩] []]

/-- A repaired geometry with an interior ring (two rings) and an out-of-range
vertex (longitude 500): still accepted, never re-checked. -/
def fixedC9 : Geometry :=
  .mk wkbPolygon false true []
    [.mk wkbLineString false true [⟨500, 0⟩, ⟨501, 0⟩, ⟨500, 1⟩] [],
     .mk wkbLineString false true [⟨500.2, 0.2⟩] []]

/-- Oracle whose `Buffer(0)` produces `fixedC9`. -/
def opsC9 : GeomOps :=
  { buffer0 := fun _ => some fixedC9, simplifyPT := fun g _ => g,
    transformArea := fun _ _ _ => none }

/-- Witness for C9: the repaired geometry has a hole and an out-of-range
vertex and `simplify` is on, yet the result is an immediate "Auto-fixed"
accept. -/
theorem autofix_accepts_repair_unconditionally_witness :
    validate_and_fix_geometry opsC9 (some gC9) true true = (true, "Valid", some "Auto-fixed") :=
  autofix_accepts_repair_unconditionally opsC9 gC9 fixedC9 true rfl (by decide) (by decide)
    rfl rfl rfl rfl

/-- C8: classification is idempotent on a cleanly accepted geometry: if
`validate_and_fix_geometry` accepts with no action under given flags, then
running it (again) on the same geometry with the same flags yields exactly
`(accepted, "Valid", no action)`. -/
theorem classifier_idempotent_on_clean_accept (ops : GeomOps) (geom : Option Geometry)
    (autofix simplify : Bool)
    (hacc : (validate_and_fix_geometry ops geom autofix simplify).1 = true)
    (hact : (validate_and_fix_geometry ops geom autofix simplify).2.2 = none) :
    validate_and_fix_geometry ops geom autofix simplify = (true, "Valid", none) := by
  cases geom with
  | none => exact absurd hacc (by simp [validate_and_fix_geometry])
  | some g =>
    by_cases he : g.isEmptyFlag
    · exact absurd hacc (by simp [validate_and_fix_geometry, he])
    · by_cases hl : g.baseType = wkbLineString ∨ g.baseType = wkbMultiLineString
      · exact absurd hacc (by simp [validate_and_fix_geometry, he, hl])
      · by_cases hv : g.isValidFlag
        · by_cases hh : g.baseType = wkbPolygon ∧ g.children.length > 1
          · exact absurd hacc (by
              simp [validate_and_fix_geometry, he, hl, hv, hh.1, hh.2, wkbPolygon,
                wkbLineString, wkbMultiLineString])
          · rcases hvv : validate_geometry_vertices (some g) with ⟨vb, vr⟩
            cases vb
            · exact absurd hacc (by simp [validate_and_fix_geometry, he, hl, hv, hh, hvv])
            · by_cases hs : simplify ∧ g.baseType = wkbPolygon
              · have hlen : ¬1 < g.children.length := fun hgt => hh ⟨hs.2, hgt⟩
                exact absurd hact (by
                  simp [validate_and_fix_geometry, he, hl, hv, hvv, hs.1, hs.2, hlen, wkbPolygon,
                    wkbLineString, wkbMultiLineString])
              · simp [validate_and_fix_geometry, he, hl, hv, hh, hvv, hs]
        · by_cases ha : autofix
          · rcases hb : ops.buffer0 g with _ | fg
            · exact absurd hacc
                (by simp [validate_and_fix_geometry, he, hl, hv, ha, hb])
            · by_cases hf : !fg.isEmptyFlag && fg.isValidFlag
              · exact absurd hact
                  (by simp [validate_and_fix_geometry, he, hl, hv, ha, hb, hf])
              · exact absurd hacc
                  (by simp [validate_and_fix_geometry, he, hl, hv, ha, hb, hf])
          · exact absurd hacc (by simp [validate_and_fix_geometry, he, hl, hv, ha])

/-- A clean single-ring polygon with in-bounds vertices. -/
def gClean : Geometry :=
  .mk wkbPolygon false true [] [.mk wkbLineString false true [⟨10, 10⟩, ⟨11, 10⟩, ⟨10, 11⟩] []]

/-- Witness for C8: the clean polygon is accepted with no action (flags
`autofix = true`, `simplify = false`), and re-running returns the same clean
accept. -/
theorem classifier_idempotent_on_clean_accept_witness :
    validate_and_fix_geometry exOps (some gClean) true false = (true, "Valid", none) :=
  classifier_idempotent_on_clean_accept exOps (some gClean) true false
    (by norm_num [validate_and_fix_geometry, gClean, validate_geometry_vertices,
      get_all_points, get_all_points_list, Geometry.baseType, Geometry.typeCode,
      Geometry.isEmptyFlag, Geometry.isValidFlag, Geometry.children, Geometry.pts,
      inGeoBounds, wkbPolygon, wkbLineString, wkbPoint, wkbMultiPoint, wkbMultiLineString,
      wkbMultiPolygon])
    (by norm_num [validate_and_fix_geometry, gClean, validate_geometry_vertices,
      get_all_points, get_all_points_list, Geometry.baseType, Geometry.typeCode,
      Geometry.isEmptyFlag, Geometry.isValidFlag, Geometry.children, Geometry.pts,
      inGeoBounds, wkbPolygon, wkbLineString, wkbPoint, wkbMultiPoint, wkbMultiLineString,
      wkbMultiPolygon])

/-- C10: the area calculator returns `0.0` (a present value, not `None`) for a
missing or empty geometry; `None` occurs for a non-empty geometry exactly when
the centroid fails, the centroid falls outside the geographic bounds, or the
coordinate transform raises. -/
theorem area_none_classification (ops : GeomOps) :
    get_area_in_hectares ops none = some 0 ∧
    (∀ g : Geometry, g.isEmptyFlag = true → get_area_in_hectares ops (some g) = some 0) ∧
    (∀ g : Geometry, g.isEmptyFlag = false →
      (get_area_in_hectares ops (some g) = none ↔
        centroidModel g = none ∨
        (∃ c, centroidModel g = some c ∧ inGeoBounds c.x c.y = false) ∨
        (∃ c, centroidModel g = some c ∧ inGeoBounds c.x c.y = true ∧
          ops.transformArea g (⌊(c.x + 180) / 6⌋ + 1) (decide ((0 : ℚ) ≤ c.y)) = none))) := by
  refine ⟨rfl, fun g hg => by simp [get_area_in_hectares, hg], fun g hg => ?_⟩
  rcases hc : centroidModel g with _ | c
  · simp [get_area_in_hectares, hg, hc]
  · by_cases hb : inGeoBounds c.x c.y
    · rcases ht : ops.transformArea g (⌊(c.x + 180) / 6⌋ + 1) (decide ((0 : ℚ) ≤ c.y))
        with _ | a
      · simp [get_area_in_hectares, hg, hc, hb, ht]
      · simp [get_area_in_hectares, hg, hc, hb, ht]
    · simp [get_area_in_hectares, hg, hc, hb]

/-- Witness for C10: an empty geometry yields area `0.0`, not `None`. -/
theorem area_none_classification_witness :
    get_area_in_hectares exOps (some (.mk wkbPolygon true true [] [])) = some 0 :=
  (area_none_classification exOps).2.1 _ rfl

/-- C4: the dataset gate of `run` uses strict spatial-reference equivalence
(`IsSame`, which ignores the EPSG authority code): a dataset whose declared
CRS is not equivalent to WGS84 is recorded "WRONG_EPSG" with none of its
features partitioned, and a dataset whose CRS is equivalent is partitioned. -/
theorem crs_gate_strict (ops : GeomOps) (ds : DataSource) (layer : Layer)
    (srs : SpatialReference) (stem : String) (s af ic : Bool)
    (hl : ds.layer = some layer) (hs : layer.srs = some srs) :
    (srs.IsSame wgs84_srs = false →
      run_dataset ops ds stem s af ic = { status := "WRONG_EPSG", partitioned := none }) ∧
    (srs.IsSame wgs84_srs = true →
      run_dataset ops ds stem s af ic =
        { status :=
            if (partition_and_process_dataset ops layer.features stem s af ic).stats.review > 0
                ∨ (partition_and_process_dataset ops layer.features stem s af ic).stats.candidates > 0
              then "PROCESSED_WITH_ISSUES" else "PROCESSED_CLEAN",
          partitioned := some (partition_and_process_dataset ops layer.features stem s af ic) }) := by
  constructor <;> intro h <;> simp [run_dataset, validate_global_crs, hl, hs, h]

/-- A spatial reference carrying the EPSG code 4326 but a different actual
definition (projected, not geographic): strictly not WGS84. -/
def srsCoded4326 : SpatialReference :=
  { srsDefinition := "PROJCS[WebMercator]", epsgCode := some 4326 }

/-- Witness for C4: a dataset whose CRS merely carries EPSG code 4326 but is
not definitionally WGS84 is rejected as "WRONG_EPSG" with nothing
partitioned. -/
theorem crs_gate_strict_witness :
    run_dataset exOps ⟨some ⟨some srsCoded4326, []⟩⟩ "d" true true true
      = { status := "WRONG_EPSG", partitioned := none } :=
  (crs_gate_strict exOps ⟨some ⟨some srsCoded4326, []⟩⟩ ⟨some srsCoded4326, []⟩
    srsCoded4326 "d" true true true rfl rfl).1 (by decide)

/-- C2: for an accepted feature with a successfully computed area, under
`identify_candidates = true` a polygon (by masked base type) of area strictly
below 4 ha is routed "Candidate for Conversion" while an area of at least 4 ha
yields "Valid"; under `identify_candidates = false` the feature yields "Valid"
regardless. -/
theorem candidate_threshold_routing (ops : GeomOps) (stem : String) (simplify autofix : Bool)
    (f : Feature) (a : ℚ)
    (hacc : (validate_and_fix_geometry ops f.geom autofix simplify).1 = true)
    (ha : get_area_in_hectares ops f.geom = some a) :
    ((f.geom.map Geometry.baseType).getD 0 = wkbPolygon → a < MIN_AREA_HA_FOR_POLYGON →
      (process_feature_outcome ops stem simplify autofix true f).row.final_status
        = "Candidate for Conversion") ∧
    (MIN_AREA_HA_FOR_POLYGON ≤ a →
      (process_feature_outcome ops stem simplify autofix true f).row.final_status = "Valid") ∧
    (process_feature_outcome ops stem simplify autofix false f).row.final_status = "Valid" := by
  refine ⟨fun hpoly hlt => ?_, fun hge => ?_, ?_⟩
  · simp [process_feature_outcome, hacc, ha, hpoly, hlt]
  · simp [process_feature_outcome, hacc, ha, not_lt.2 hge]
  · simp [process_feature_outcome, hacc, ha]

/-- A small clean polygon (single ring, three vertices, centroid (10, 11)). -/
def gSmall : Geometry :=
  .mk wkbPolygon false true [] [.mk wkbLineString false true [⟨9, 10⟩, ⟨11, 10⟩, ⟨10, 13⟩] []]

/-- Oracle whose projected-area computation yields 10000 m² (1 ha). -/
def opsSmall : GeomOps :=
  { buffer0 := fun _ => none, simplifyPT := fun g _ => g,
    transformArea := fun _ _ _ => some 10000 }

/-- The feature wrapping `gSmall`. -/
def fSmall : Feature := { qa_id := "d_0", props := [], geom := some gSmall }

/-- Witness for C2: the 1 ha polygon is routed "Candidate for Conversion"
when `identify_candidates` is on. -/
theorem candidate_threshold_routing_witness :
    (process_feature_outcome opsSmall "d" false false true fSmall).row.final_status
      = "Candidate for Conversion" :=
  (candidate_threshold_routing opsSmall "d" false false fSmall 1
    (by norm_num [validate_and_fix_geometry, fSmall, gSmall, validate_geometry_vertices,
      get_all_points, get_all_points_list, Geometry.baseType, Geometry.typeCode,
      Geometry.isEmptyFlag, Geometry.isValidFlag, Geometry.children, Geometry.pts,
      inGeoBounds, wkbPolygon, wkbLineString, wkbPoint, wkbMultiPoint, wkbMultiLineString,
      wkbMultiPolygon])
    (by norm_num [get_area_in_hectares, fSmall, gSmall, centroidModel, get_all_points,
      get_all_points_list, Geometry.baseType, Geometry.typeCode, Geometry.isEmptyFlag,
      Geometry.isValidFlag, Geometry.children, Geometry.pts, inGeoBounds, opsSmall,
      METERS_SQ_PER_HECTARE, wkbPolygon, wkbLineString, wkbPoint, wkbMultiPoint,
      wkbMultiLineString, wkbMultiPolygon])).1
    (by decide)
    (by norm_num [MIN_AREA_HA_FOR_POLYGON])

/-- The bookkeeping invariant of the partition state: `total` equals the sum
of the three bucket counters, one detailed row and one bucket feature exist
per counted feature. -/
def WellCounted (st : PartitionState) : Prop :=
  st.stats.total = st.stats.valid_large + st.stats.review + st.stats.candidates ∧
  st.stats.total = st.detailed_rows.length ∧
  st.review_out.length = st.stats.review ∧
  st.candidates_out.length = st.stats.candidates ∧
  st.valid_out.length = st.stats.valid_large

/-- The action recorded in a feature's outcome is exactly the classification
action of `validate_and_fix_geometry`. -/
theorem process_feature_outcome_action (ops : GeomOps) (stem : String) (s af ic : Bool)
    (f : Feature) :
    (process_feature_outcome ops stem s af ic f).action
      = (validate_and_fix_geometry ops f.geom af s).2.2 := by
  unfold process_feature_outcome
  rcases validate_and_fix_geometry ops f.geom af s with ⟨b, reason, act⟩
  cases b
  · rfl
  · rcases get_area_in_hectares ops f.geom with _ | a
    · rfl
    · by_cases hc :
        ic = true ∧ (f.geom.map Geometry.baseType).getD 0 = wkbPolygon ∧
          a < MIN_AREA_HA_FOR_POLYGON
      · simp [hc.1, hc.2.1, hc.2.2]
      · simp only []
        split
        · rfl
        · rfl

/-- One loop iteration preserves the bookkeeping invariant and performs the
expected increments. -/
theorem process_one_feature_increments (ops : GeomOps) (stem : String) (s af ic : Bool)
    (st : PartitionState) (f : Feature) (hw : WellCounted st) :
    WellCounted (process_one_feature ops stem s af ic st f) ∧
    (process_one_feature ops stem s af ic st f).stats.total = st.stats.total + 1 ∧
    (process_one_feature ops stem s af ic st f).stats.autofixed = st.stats.autofixed +
      (if (validate_and_fix_geometry ops f.geom af s).2.2 == some "Auto-fixed" then 1
        else 0) := by
  obtain ⟨h1, h2, h3, h4, h5⟩ := hw
  unfold process_one_feature
  rw [← process_feature_outcome_action ops stem s af ic f]
  rcases hr : (process_feature_outcome ops stem s af ic f).route <;>
    simp only [hr] <;>
    refine ⟨⟨?_, ?_, ?_, ?_, ?_⟩, ?_, ?_⟩ <;>
    simp [WellCounted, h1, h2, h3, h4, h5] <;> omega

/-- The feature-loop fold preserves the invariant and accumulates `total` and
`autofixed`. -/
theorem partition_fold_invariant (ops : GeomOps) (stem : String) (s af ic : Bool)
    (feats : List Feature) (st : PartitionState) (hw : WellCounted st) :
    WellCounted (feats.foldl (process_one_feature ops stem s af ic) st) ∧
    (feats.foldl (process_one_feature ops stem s af ic) st).stats.total
      = st.stats.total + feats.length ∧
    (feats.foldl (process_one_feature ops stem s af ic) st).stats.autofixed
      = st.stats.autofixed + feats.countP
          (fun f => (validate_and_fix_geometry ops f.geom af s).2.2 == some "Auto-fixed") := by
  induction feats generalizing st with
  | nil => simpa using hw
  | cons f rest ih =>
    obtain ⟨hw2, ht2, ha2⟩ := process_one_feature_increments ops stem s af ic st f hw
    obtain ⟨hw3, ht3, ha3⟩ := ih (process_one_feature ops stem s af ic st f) hw2
    refine ⟨hw3, ?_, ?_⟩
    · simp only [List.foldl_cons] at ht3 ⊢
      rw [ht3, ht2, List.length_cons]
      omega
    · simp only [List.foldl_cons] at ha3 ⊢
      rw [ha3, ha2, List.countP_cons]
      by_cases hcount :
          ((validate_and_fix_geometry ops f.geom af s).2.2 == some "Auto-fixed") = true
      · simp [hcount]
        omega
      · simp [hcount]

/-- C6: after partitioning, every input feature produced exactly one detailed
row and exactly one bucket entry, so
`total = valid_large + review + candidates = |detailed rows| = |features|`,
and `autofixed` counts exactly the features whose classification action was
"Auto-fixed", whatever bucket they reached. -/
theorem partition_counts_and_autofixed (ops : GeomOps) (feats : List Feature)
    (stem : String) (s af ic : Bool) :
    (partition_and_process_dataset ops feats stem s af ic).stats.total = feats.length ∧
    (partition_and_process_dataset ops feats stem s af ic).stats.total
      = (partition_and_process_dataset ops feats stem s af ic).stats.valid_large
        + (partition_and_process_dataset ops feats stem s af ic).stats.review
        + (partition_and_process_dataset ops feats stem s af ic).stats.candidates ∧
    (partition_and_process_dataset ops feats stem s af ic).detailed_rows.length
      = (partition_and_process_dataset ops feats stem s af ic).stats.total ∧
    (partition_and_process_dataset ops feats stem s af ic).review_out.length
      = (partition_and_process_dataset ops feats stem s af ic).stats.review ∧
    (partition_and_process_dataset ops feats stem s af ic).candidates_out.length
      = (partition_and_process_dataset ops feats stem s af ic).stats.candidates ∧
    (partition_and_process_dataset ops feats stem s af ic).valid_out.length
      = (partition_and_process_dataset ops feats stem s af ic).stats.valid_large ∧
    (partition_and_process_dataset ops feats stem s af ic).stats.autofixed
      = feats.countP
          (fun f => (validate_and_fix_geometry ops f.geom af s).2.2 == some "Auto-fixed") := by
  have hinit : WellCounted initPartitionState := by
    refine ⟨rfl, rfl, rfl, rfl, rfl⟩
  obtain ⟨⟨h1, h2, h3, h4, h5⟩, ht, ha⟩ :=
    partition_fold_invariant ops stem s af ic feats initPartitionState hinit
  unfold partition_and_process_dataset
  exact ⟨by simpa [initPartitionState] using ht, h1, h2.symm, h3, h4, h5,
    by simpa [initPartitionState] using ha⟩

/-- The output feature of every route carries the feature's original geometry
reference (`SetFrom(in_feature)` / `SetGeometry(geom)` on the caller's
`geom`). -/
theorem process_feature_outcome_out_geom (ops : GeomOps) (stem : String) (s af ic : Bool)
    (f : Feature) :
    (process_feature_outcome ops stem s af ic f).out.geom = f.geom := by
  simp only [process_feature_outcome]
  repeat' split
  all_goals rfl

/-- An invalid polygon (its classification will repair it). -/
def gBug : Geometry :=
  .mk wkbPolygon false false [] [.mk wkbLineString false true [⟨1, 1⟩, ⟨2, 2⟩] []]

/-- The geometry `Buffer(0)` produces for `gBug`: valid, non-empty, and
observably different from `gBug`. -/
def fixedBug : Geometry :=
  .mk wkbPolygon false true [] [.mk wkbLineString false true [⟨1, 1⟩, ⟨2, 1⟩, ⟨1, 2⟩] []]

/-- Oracle under which `gBug` is repaired to `fixedBug` and the projected area
is 100000 m² (10 ha). -/
def opsBug : GeomOps :=
  { buffer0 := fun _ => some fixedBug, simplifyPT := fun g _ => g,
    transformArea := fun _ _ _ => some 100000 }

/-- The feature carrying `gBug`. -/
def fBug : Feature := { qa_id := "d_0", props := [], geom := some gBug }

/-- C1 (refuted by the code): `validate_and_fix_geometry` computes
`fixed_geom = geom.Buffer(0)` and rebinds its local `geom`, but returns only
the `(accepted, reason, action)` triple, so `partition_and_process_dataset`
keeps using the original geometry: here the feature is classified
"Auto-fixed", yet the geometry written to the output bucket is the pre-fix
`gBug`, which differs from the repaired `fixedBug`, and the area fed to the
threshold comparison is likewise computed from the original geometry. -/
theorem autofixed_geometry_not_propagated :
    (process_feature_outcome opsBug "d" false true true fBug).action = some "Auto-fixed" ∧
    opsBug.buffer0 gBug = some fixedBug ∧
    (process_feature_outcome opsBug "d" false true true fBug).out.geom = some gBug ∧
    gBug ≠ fixedBug ∧
    get_area_in_hectares opsBug fBug.geom = some 10 := by
  have harea : get_area_in_hectares opsBug fBug.geom = some 10 := by
    norm_num [get_area_in_hectares, fBug, gBug, centroidModel, get_all_points,
      get_all_points_list, Geometry.baseType, Geometry.typeCode, Geometry.isEmptyFlag,
      Geometry.isValidFlag, Geometry.children, Geometry.pts, inGeoBounds, opsBug,
      METERS_SQ_PER_HECTARE, wkbPolygon, wkbLineString, wkbPoint, wkbMultiPoint,
      wkbMultiLineString, wkbMultiPolygon]
  have hval : validate_and_fix_geometry opsBug fBug.geom true false
      = (true, "Valid", some "Auto-fixed") := by
    norm_num [validate_and_fix_geometry, fBug, gBug, fixedBug, opsBug, Geometry.baseType,
      Geometry.typeCode, Geometry.isEmptyFlag, Geometry.isValidFlag, wkbPolygon,
      wkbLineString, wkbMultiLineString]
  refine ⟨?_, rfl, ?_, ?_, harea⟩
  · rw [process_feature_outcome_action, hval]
  · rw [process_feature_outcome_out_geom]
    rfl
  · intro h
    have := congrArg Geometry.isValidFlag h
    simp [gBug, fixedBug, Geometry.isValidFlag] at this

/-- The average of a non-empty list of rationals lies between any lower and
upper bound of the list. -/
theorem list_avg_bounds (l : List ℚ) (hne : l ≠ []) (lo hi : ℚ)
    (h : ∀ v ∈ l, lo ≤ v ∧ v ≤ hi) :
    lo ≤ l.sum / l.length ∧ l.sum / l.length ≤ hi := by
  have hlen : 0 < (l.length : ℚ) := by
    have : 0 < l.length := List.length_pos.2 hne
    exact_mod_cast this
  constructor
  · rw [le_div_iff hlen]
    have := List.card_nsmul_le_sum l lo (fun v hv => (h v hv).1)
    rw [nsmul_eq_mul] at this
    linarith
  · rw [div_le_iff hlen]
    have := List.sum_le_card_nsmul l hi (fun v hv => (h v hv).2)
    rw [nsmul_eq_mul] at this
    linarith

/-- Unfolding an association-list lookup one binding at a time. -/
theorem lookupStore_cons {α : Type} (a : String × α) (l : List (String × α)) (k : String) :
    lookupStore (a :: l) k = if a.1 == k then some a.2 else lookupStore l k := by
  by_cases h : a.1 == k <;> simp [lookupStore, List.find?_cons, h]

/-- Looking a key up after the Area-overwrite map: the `Area` binding gets the
new value, every other key is untouched. -/
theorem lookup_area_overwrite (l : List (String × FieldValue)) (k : String) (x : FieldValue) :
    lookupStore (l.map (fun kv => if kv.1 == "Area" then (kv.1, x) else kv)) k
      = if k = "Area" then (lookupStore l k).map (fun _ => x) else lookupStore l k := by
  induction l with
  | nil => by_cases hk : k = "Area" <;> simp [lookupStore, hk]
  | cons kv rest ih =>
    rcases kv with ⟨key, val⟩
    simp only [beq_iff_eq] at ih
    by_cases hkv : key = "Area"
    · subst hkv
      by_cases hk : k = "Area"
      · subst hk
        simp [List.map_cons, lookupStore_cons]
      · have h2 : (("Area" : String) == k) = false := by
          simp [Ne.symm hk]
        simp [List.map_cons, lookupStore_cons, h2, ih, hk]
    · by_cases hk : key = k
      · subst hk
        simp [List.map_cons, lookupStore_cons, hkv]
      · have h2 : (key == k) = false := by simp [hk]
        simp [List.map_cons, lookupStore_cons, hkv, h2, ih]

/-- C7: a successfully converted candidate keeps its identifier, its geometry
becomes the centroid point of the original polygon (which lies within the
polygon's bounding extent on both axes), and an existing `Area` property is
overwritten with exactly 4.0. -/
theorem conversion_roundtrip (jf : JFeature) (g : Geometry) (c : GPoint)
    (hg : jf.geom = some g) (hne : g.isEmptyFlag = false)
    (hc : centroidModel g = some c) :
    ∃ jf2, convert_feature jf = some jf2 ∧
      jf2.geom = some (pointGeometry c) ∧
      jfeatId jf2 = jfeatId jf ∧
      (∀ v, lookupStore jf.props "Area" = some v →
        lookupStore jf2.props "Area" = some (FieldValue.real MIN_AREA_HA_FOR_POLYGON)) ∧
      (∀ lo hi : ℚ, (∀ p ∈ get_all_points g, lo ≤ p.x ∧ p.x ≤ hi) →
        lo ≤ c.x ∧ c.x ≤ hi) ∧
      (∀ lo hi : ℚ, (∀ p ∈ get_all_points g, lo ≤ p.y ∧ p.y ≤ hi) →
        lo ≤ c.y ∧ c.y ≤ hi) := by
  rcases hpts : get_all_points g with _ | ⟨p, ps⟩
  · rw [centroidModel, hpts] at hc
    exact absurd hc (by simp)
  · have hcx : c.x = ((p :: ps).map GPoint.x).sum / (p :: ps).length := by
      rw [centroidModel, hpts] at hc
      simp only [Option.some.injEq] at hc
      rw [← hc]
    have hcy : c.y = ((p :: ps).map GPoint.y).sum / (p :: ps).length := by
      rw [centroidModel, hpts] at hc
      simp only [Option.some.injEq] at hc
      rw [← hc]
    refine ⟨⟨if jf.props.any (fun kv => kv.1 == "Area") then
        jf.props.map (fun kv =>
          if kv.1 == "Area" then (kv.1, FieldValue.real MIN_AREA_HA_FOR_POLYGON) else kv)
      else jf.props, some (pointGeometry c)⟩, ?_, rfl, ?_, ?_, ?_, ?_⟩
    · simp [convert_feature, hg, hne, hc]
    · unfold jfeatId
      by_cases hA : jf.props.any (fun kv => kv.1 == "Area")
      · simp only [hA, if_true]
        rw [lookup_area_overwrite]
        simp [ID_FIELD_NAME]
      · simp [hA]
    · intro v hv
      by_cases hA : jf.props.any (fun kv => kv.1 == "Area")
      · simp only [hA, if_true]
        rw [lookup_area_overwrite]
        simp [hv]
      · exfalso
        rw [lookupStore] at hv
        rcases hfind : jf.props.find? (fun kv => kv.1 == "Area") with _ | kv
        · rw [hfind] at hv
          simp at hv
        · have := List.find?_some hfind
          have hmem := List.mem_of_find?_eq_some hfind
          rw [List.any_eq_true] at hA
          exact hA ⟨kv, hmem, this⟩
    · intro lo hi hb
      rw [hcx]
      have : ∀ v ∈ (p :: ps).map GPoint.x, lo ≤ v ∧ v ≤ hi := by
        intro v hv
        rw [List.mem_map] at hv
        obtain ⟨q, hq, rfl⟩ := hv
        exact hb q (hpts ▸ hq)
      have hres := list_avg_bounds ((p :: ps).map GPoint.x) (by simp) lo hi this
      simpa using hres
    · intro lo hi hb
      rw [hcy]
      have : ∀ v ∈ (p :: ps).map GPoint.y, lo ≤ v ∧ v ≤ hi := by
        intro v hv
        rw [List.mem_map] at hv
        obtain ⟨q, hq, rfl⟩ := hv
        exact hb q (hpts ▸ hq)
      have hres := list_avg_bounds ((p :: ps).map GPoint.y) (by simp) lo hi this
      simpa using hres

/-- A 2.0 ha candidate right triangle with vertices (0,0), (3,0), (0,3), so
centroid (1, 1) in the vertex-average model. -/
def jfTri : JFeature :=
  { props := [("qa_assistant_id", .str "d_0"), ("Area", .real 2)],
    geom := some (.mk wkbPolygon false true []
      [.mk wkbLineString false true [⟨0, 0⟩, ⟨3, 0⟩, ⟨0, 3⟩] []]) }

/-- The triangle geometry carried by `jfTri`. -/
def gTri : Geometry :=
  .mk wkbPolygon false true [] [.mk wkbLineString false true [⟨0, 0⟩, ⟨3, 0⟩, ⟨0, 3⟩] []]

/-- Witness for C7: converting the concrete triangle candidate. -/
theorem conversion_roundtrip_witness :
    ∃ jf2, convert_feature jfTri = some jf2 ∧
      jf2.geom = some (pointGeometry ⟨1, 1⟩) ∧
      jfeatId jf2 = jfeatId jfTri ∧
      (∀ v, lookupStore jfTri.props "Area" = some v →
        lookupStore jf2.props "Area" = some (FieldValue.real MIN_AREA_HA_FOR_POLYGON)) ∧
      (∀ lo hi : ℚ, (∀ p ∈ get_all_points gTri, lo ≤ p.x ∧ p.x ≤ hi) →
        lo ≤ (⟨1, 1⟩ : GPoint).x ∧ (⟨1, 1⟩ : GPoint).x ≤ hi) ∧
      (∀ lo hi : ℚ, (∀ p ∈ get_all_points gTri, lo ≤ p.y ∧ p.y ≤ hi) →
        lo ≤ (⟨1, 1⟩ : GPoint).y ∧ (⟨1, 1⟩ : GPoint).y ≤ hi) :=
  conversion_roundtrip jfTri gTri ⟨1, 1⟩ rfl rfl
    (by norm_num [centroidModel, gTri, get_all_points, get_all_points_list,
      Geometry.baseType, Geometry.typeCode, Geometry.pts, Geometry.children,
      wkbPolygon, wkbLineString, wkbPoint, wkbMultiPoint, wkbMultiLineString,
      wkbMultiPolygon, GPoint.x, GPoint.y])

/-! ### Lemmas about the conversion grouping and scanning -/

/-- Every identifier stored in a group of the stem grouping has that group's
key as its derived stem. -/
theorem group_fold_stems (qa_ids : List String) (acc : List (String × List String))
    (hacc : ∀ p ∈ acc, ∀ i ∈ p.2, derive_stem i = p.1) :
    ∀ p ∈ qa_ids.foldl group_step acc, ∀ i ∈ p.2, derive_stem i = p.1 := by
  induction qa_ids generalizing acc with
  | nil => exact hacc
  | cons q rest ih =>
    refine ih (group_step acc q) ?_
    intro p hp i hi
    unfold group_step at hp
    by_cases hex : acc.any (fun kv => kv.1 == derive_stem q)
    · rw [if_pos hex] at hp
      rw [List.mem_map] at hp
      obtain ⟨p0, hp0, rfl⟩ := hp
      by_cases hps : p0.1 == derive_stem q
      · rw [if_pos hps] at hi ⊢
        rcases List.mem_append.1 hi with hiL | hiR
        · exact hacc p0 hp0 i hiL
        · rw [List.mem_singleton.1 hiR]
          exact (eq_of_beq hps).symm
      · rw [if_neg hps] at hi ⊢
        exact hacc p0 hp0 i hi
    · rw [if_neg hex] at hp
      rcases List.mem_append.1 hp with hpL | hpR
      · exact hacc p hpL i hi
      · rw [List.mem_singleton.1 hpR] at hi ⊢
        rw [List.mem_singleton.1 hi]
    /- the last goal: `derive_stem q = (derive_stem q, [q]).1` -/

/-- After one grouping step, the processed identifier sits in its stem's
group. -/
theorem group_step_self (acc : List (String × List String)) (q : String) :
    ∃ gids, (derive_stem q, gids) ∈ group_step acc q ∧ q ∈ gids := by
  unfold group_step
  by_cases hex : acc.any (fun kv => kv.1 == derive_stem q)
  · rw [if_pos hex]
    rw [List.any_eq_true] at hex
    obtain ⟨kv, hkv, hbeq⟩ := hex
    refine ⟨kv.2 ++ [q], ?_, by simp⟩
    have := List.mem_map_of_mem
      (fun kv => if kv.1 == derive_stem q then (kv.1, kv.2 ++ [q]) else kv) hkv
    simp only [hbeq, if_true] at this
    rwa [eq_of_beq hbeq] at this
  · rw [if_neg hex]
    exact ⟨[q], by simp, by simp⟩

/-- A grouping step never loses an identifier already present in a group. -/
theorem group_step_mono (acc : List (String × List String)) (q i s : String)
    (gids : List String) (hmem : (s, gids) ∈ acc) (hi : i ∈ gids) :
    ∃ gids2, (s, gids2) ∈ group_step acc q ∧ i ∈ gids2 := by
  unfold group_step
  by_cases hex : acc.any (fun kv => kv.1 == derive_stem q)
  · rw [if_pos hex]
    have := List.mem_map_of_mem
      (fun kv => if kv.1 == derive_stem q then (kv.1, kv.2 ++ [q]) else kv) hmem
    by_cases hps : ((s, gids).1 == derive_stem q) = true
    · simp only [hps, if_true] at this
      exact ⟨gids ++ [q], this, List.mem_append_left _ hi⟩
    · simp only [hps, if_false, Bool.false_eq_true] at this
      refine ⟨gids, ?_, hi⟩
      simpa using this
  · rw [if_neg hex]
    exact ⟨gids, List.mem_append_left _ hmem, hi⟩

/-- Every requested identifier ends up in the group of its derived stem. -/
theorem group_fold_mem (qa_ids : List String) (acc : List (String × List String))
    (q : String)
    (hq : q ∈ qa_ids ∨ ∃ gids, (derive_stem q, gids) ∈ acc ∧ q ∈ gids) :
    ∃ gids, (derive_stem q, gids) ∈ qa_ids.foldl group_step acc ∧ q ∈ gids := by
  induction qa_ids generalizing acc with
  | nil =>
    rcases hq with h | h
    · exact absurd h (List.not_mem_nil q)
    · exact h
  | cons r rest ih =>
    rw [List.foldl_cons]
    refine ih (group_step acc r) ?_
    rcases hq with h | ⟨gids, hmem, hi⟩
    · rcases List.mem_cons.1 h with rfl | hrest
      · exact Or.inr (group_step_self acc q)
      · exact Or.inl hrest
    · exact Or.inr (group_step_mono acc r q (derive_stem q) gids hmem hi)

/-- Where a failed identifier of the candidate-file scan can come from: it was
failed before, or it is a requested identifier carried by some feature of the
scanned file. -/
theorem scan_fold_failed (gids : List String) (cfeats : List JFeature)
    (acc : GroupResult) (q : String)
    (hq : q ∈ (cfeats.foldl (scan_step gids) acc).failed) :
    q ∈ acc.failed ∨ (q ∈ gids ∧ ∃ jf ∈ cfeats, jfeatId jf = some q) := by
  induction cfeats generalizing acc with
  | nil => exact Or.inl hq
  | cons jf rest ih =>
    rw [List.foldl_cons] at hq
    rcases ih (scan_step gids acc jf) hq with hstep | ⟨hg, jf2, hjf2, hid⟩
    · unfold scan_step at hstep
      rcases hjid : jfeatId jf with _ | qa
      · simp only [hjid] at hstep
        exact Or.inl hstep
      · by_cases hin : gids.contains qa = true
        · rcases hcv : convert_feature jf with _ | jf2
          · simp only [hjid, hin, if_true, hcv, List.mem_append,
              List.mem_singleton] at hstep
            rcases hstep with h | rfl
            · exact Or.inl h
            · exact Or.inr ⟨List.mem_of_elem_eq_true hin, jf, List.mem_cons_self jf rest, hjid⟩
          · simp only [hjid, hin, if_true, hcv] at hstep
            exact Or.inl hstep
        · simp only [hjid, hin] at hstep
          exact Or.inl hstep
    · exact Or.inr ⟨hg, jf2, List.mem_cons_of_mem jf hjf2, hid⟩

/-- Where a converted (`candidates_to_remove`) identifier of the scan can come
from: removed before, or requested and carried by some scanned feature. -/
theorem scan_fold_removed (gids : List String) (cfeats : List JFeature)
    (acc : GroupResult) (q : String)
    (hq : q ∈ (cfeats.foldl (scan_step gids) acc).removed) :
    q ∈ acc.removed ∨ (q ∈ gids ∧ ∃ jf ∈ cfeats, jfeatId jf = some q) := by
  induction cfeats generalizing acc with
  | nil => exact Or.inl hq
  | cons jf rest ih =>
    rw [List.foldl_cons] at hq
    rcases ih (scan_step gids acc jf) hq with hstep | ⟨hg, jf2, hjf2, hid⟩
    · unfold scan_step at hstep
      rcases hjid : jfeatId jf with _ | qa
      · simp only [hjid] at hstep
        exact Or.inl hstep
      · by_cases hin : gids.contains qa = true
        · rcases hcv : convert_feature jf with _ | jf2
          · simp only [hjid, hin, if_true, hcv] at hstep
            exact Or.inl hstep
          · simp only [hjid, hin, if_true, hcv, List.mem_append,
              List.mem_singleton] at hstep
            rcases hstep with h | rfl
            · exact Or.inl h
            · exact Or.inr ⟨List.mem_of_elem_eq_true hin, jf, List.mem_cons_self jf rest, hjid⟩
        · simp only [hjid, hin] at hstep
          exact Or.inl hstep
    · exact Or.inr ⟨hg, jf2, List.mem_cons_of_mem jf hjf2, hid⟩

/-- The store-writing fold never touches the ledger. -/
theorem conv_write_fold_ledger (results : List (String × GroupResult)) (stores : ConvStores) :
    (results.foldl conv_write_step stores).ledger = stores.ledger := by
  induction results generalizing stores with
  | nil => rfl
  | cons r rest ih =>
    rw [List.foldl_cons, ih]
    unfold conv_write_step
    by_cases h : r.2.newPoints.isEmpty <;> simp [h]

/-- A missing candidate file fails the whole group. -/
theorem process_group_none (stores : ConvStores) (stem : String) (gids : List String)
    (h : lookupStore stores.candidateFiles stem = none) :
    process_group stores stem gids = ⟨gids, [], []⟩ := by
  simp [process_group, h]

/-- A present candidate file is scanned. -/
theorem process_group_some (stores : ConvStores) (stem : String) (gids : List String)
    (cf : List JFeature) (h : lookupStore stores.candidateFiles stem = some cf) :
    process_group stores stem gids = scan_candidates gids cf := by
  simp [process_group, h]

/-- Membership in the returned `failed_identifiers`, read back through the
grouping. -/
theorem batch_failed_iff (stores : ConvStores) (request : List String) (z : String) :
    z ∈ (batch_convert_candidates_to_points stores request).failed_ids ↔
      ∃ sg, sg ∈ group_by_stem request ∧ z ∈ (process_group stores sg.1 sg.2).failed := by
  simp only [batch_convert_candidates_to_points, List.mem_flatten, List.mem_map]
  constructor
  · rintro ⟨L, ⟨r, ⟨sg, hsg, rfl⟩, rfl⟩, hz⟩
    exact ⟨sg, hsg, hz⟩
  · rintro ⟨sg, hsg, hz⟩
    exact ⟨(process_group stores sg.1 sg.2).failed,
      ⟨(sg.1, process_group stores sg.1 sg.2), ⟨sg, hsg, rfl⟩, rfl⟩, hz⟩

/-- Membership in the returned converted (`candidates_to_remove`) identifiers,
read back through the grouping. -/
theorem batch_removed_iff (stores : ConvStores) (request : List String) (z : String) :
    z ∈ (batch_convert_candidates_to_points stores request).removed_ids ↔
      ∃ sg, sg ∈ group_by_stem request ∧ z ∈ (process_group stores sg.1 sg.2).removed := by
  simp only [batch_convert_candidates_to_points, List.mem_flatten, List.mem_map]
  constructor
  · rintro ⟨L, ⟨r, ⟨sg, hsg, rfl⟩, rfl⟩, hz⟩
    exact ⟨sg, hsg, hz⟩
  · rintro ⟨sg, hsg, hz⟩
    exact ⟨(process_group stores sg.1 sg.2).removed,
      ⟨(sg.1, process_group stores sg.1 sg.2), ⟨sg, hsg, rfl⟩, rfl⟩, hz⟩

/-- The ledger the conversion writes back: the input ledger with every row
whose identifier is requested-and-not-failed rewritten. -/
theorem batch_ledger_eq (stores : ConvStores) (request : List String) :
    (batch_convert_candidates_to_points stores request).stores.ledger
      = stores.ledger.map (fun row =>
          if (request.filter (fun i =>
              !(batch_convert_candidates_to_points stores request).failed_ids.contains i)).contains
              row.qa_assistant_id then
            { row with final_status := "Valid", action_taken := "Converted to Point" }
          else row) := by
  simp only [batch_convert_candidates_to_points]
  rw [conv_write_fold_ledger]

/-- C3 (amended): for a requested identifier that no candidate store holds:
when the derived candidate file is absent the identifier lands in
`failed_identifiers`, is not converted, and its ledger rows stay untouched;
when the file exists but holds no feature with that identifier, the identifier
is still not converted, but it does NOT appear in `failed_identifiers`, and
every ledger row bearing it IS rewritten to "Valid"/"Converted to Point". -/
theorem convert_unknown_identifier (stores : ConvStores) (request : List String)
    (q : String) (hreq : q ∈ request) :
    (lookupStore stores.candidateFiles (derive_stem q) = none →
      q ∈ (batch_convert_candidates_to_points stores request).failed_ids ∧
      q ∉ (batch_convert_candidates_to_points stores request).removed_ids ∧
      ∀ row ∈ stores.ledger, row.qa_assistant_id = q →
        row ∈ (batch_convert_candidates_to_points stores request).stores.ledger) ∧
    (∀ cfeats, lookupStore stores.candidateFiles (derive_stem q) = some cfeats →
      (∀ jf ∈ cfeats, jfeatId jf ≠ some q) →
      q ∉ (batch_convert_candidates_to_points stores request).failed_ids ∧
      q ∉ (batch_convert_candidates_to_points stores request).removed_ids ∧
      ∀ row ∈ stores.ledger, row.qa_assistant_id = q →
        { row with final_status := "Valid", action_taken := "Converted to Point" }
          ∈ (batch_convert_candidates_to_points stores request).stores.ledger) := by
  have hstems : ∀ p ∈ group_by_stem request, ∀ i ∈ p.2, derive_stem i = p.1 :=
    group_fold_stems request [] (fun p hp => absurd hp (List.not_mem_nil p))
  constructor
  · intro hlook
    have hfail : q ∈ (batch_convert_candidates_to_points stores request).failed_ids := by
      obtain ⟨gids, hmem, hqg⟩ := group_fold_mem request [] q (Or.inl hreq)
      refine (batch_failed_iff stores request q).2 ⟨(derive_stem q, gids), hmem, ?_⟩
      rw [process_group_none stores (derive_stem q) gids hlook]
      exact hqg
    refine ⟨hfail, ?_, ?_⟩
    · intro hrem
      obtain ⟨sg, hsg, hz⟩ := (batch_removed_iff stores request q).1 hrem
      rcases hl : lookupStore stores.candidateFiles sg.1 with _ | cf
      · rw [process_group_none stores sg.1 sg.2 hl] at hz
        exact absurd hz (List.not_mem_nil q)
      · rw [process_group_some stores sg.1 sg.2 cf hl] at hz
        rcases scan_fold_removed sg.2 cf ⟨[], [], []⟩ q hz with habs | ⟨hqg, _, _, _⟩
        · exact absurd habs (List.not_mem_nil q)
        · rw [← hstems sg hsg q hqg] at hl
          rw [hlook] at hl
          exact Option.noConfusion hl
    · intro row hrow hrid
      rw [batch_ledger_eq]
      refine List.mem_map.2 ⟨row, hrow, if_neg ?_⟩
      intro hcon
      have hmemf := List.mem_of_elem_eq_true hcon
      rw [List.mem_filter, hrid] at hmemf
      have hct : (batch_convert_candidates_to_points stores request).failed_ids.contains q
          = true := List.elem_eq_true_of_mem hfail
      rw [hct] at hmemf
      exact Bool.noConfusion hmemf.2
  · intro cfeats hlook hnofeat
    have hnofail : q ∉ (batch_convert_candidates_to_points stores request).failed_ids := by
      intro hfail
      obtain ⟨sg, hsg, hz⟩ := (batch_failed_iff stores request q).1 hfail
      rcases hl : lookupStore stores.candidateFiles sg.1 with _ | cf
      · rw [process_group_none stores sg.1 sg.2 hl] at hz
        rw [← hstems sg hsg q hz] at hl
        rw [hlook] at hl
        exact Option.noConfusion hl
      · rw [process_group_some stores sg.1 sg.2 cf hl] at hz
        rcases scan_fold_failed sg.2 cf ⟨[], [], []⟩ q hz with habs | ⟨hqg, jf, hjf, hid⟩
        · exact absurd habs (List.not_mem_nil q)
        · rw [← hstems sg hsg q hqg] at hl
          rw [hlook] at hl
          obtain rfl := Option.some.inj hl
          exact hnofeat jf hjf hid
    refine ⟨hnofail, ?_, ?_⟩
    · intro hrem
      obtain ⟨sg, hsg, hz⟩ := (batch_removed_iff stores request q).1 hrem
      rcases hl : lookupStore stores.candidateFiles sg.1 with _ | cf
      · rw [process_group_none stores sg.1 sg.2 hl] at hz
        exact absurd hz (List.not_mem_nil q)
      · rw [process_group_some stores sg.1 sg.2 cf hl] at hz
        rcases scan_fold_removed sg.2 cf ⟨[], [], []⟩ q hz with habs | ⟨hqg, jf, hjf, hid⟩
        · exact absurd habs (List.not_mem_nil q)
        · rw [← hstems sg hsg q hqg] at hl
          rw [hlook] at hl
          obtain rfl := Option.some.inj hl
          exact hnofeat jf hjf hid
    · intro row hrow hrid
      rw [batch_ledger_eq]
      have hcf : (batch_convert_candidates_to_points stores request).failed_ids.contains q
          = false := by
        by_contra hx
        rw [Bool.not_eq_false] at hx
        exact hnofail (List.mem_of_elem_eq_true hx)
      have hc : ((request.filter (fun i =>
          !(batch_convert_candidates_to_points stores request).failed_ids.contains i)).contains
          row.qa_assistant_id) = true := by
        rw [hrid]
        refine List.elem_eq_true_of_mem ?_
        rw [List.mem_filter]
        refine ⟨hreq, ?_⟩
        rw [hcf]
        rfl
      exact List.mem_map.2 ⟨row, hrow, if_pos hc⟩

/-- A detail-ledger row for the identifier "ds_7". -/
def rowDs7 : DetailRow :=
  { original_filename := "ds.geojson", qa_assistant_id := "ds_7",
    final_status := "Candidate for Conversion", action_taken := "Identified",
    reason_notes := "Area is 1.00 ha (< 4ha)",
    attribute_status := "Not included; Not included; Not included; OK" }

/-- A candidate-store feature carrying the identifier "ds_0" (not "ds_7"). -/
def candDs0 : JFeature :=
  { props := [("qa_assistant_id", FieldValue.str "ds_0")], geom := none }

/-- Stores where the candidate file for stem "ds" exists but holds no feature
with identifier "ds_7". -/
def storesDs : ConvStores :=
  { candidateFiles := [("ds", [candDs0])], validFiles := [], ledger := [rowDs7] }

/-- Counterexample to C3 as stated: requesting "ds_7", whose candidate file
exists but holds no such feature, yields `converted_count = 0` but "ds_7" does
NOT appear in `failed_identifiers` — and its detail-ledger row IS rewritten to
"Valid"/"Converted to Point". -/
theorem convert_unknown_identifier_counterexample :
    (batch_convert_candidates_to_points storesDs ["ds_7"]).converted_count = 0 ∧
    "ds_7" ∉ (batch_convert_candidates_to_points storesDs ["ds_7"]).failed_ids ∧
    (batch_convert_candidates_to_points storesDs ["ds_7"]).stores.ledger
      = [{ rowDs7 with final_status := "Valid", action_taken := "Converted to Point" }] := by
  refine ⟨by decide, by decide, by decide⟩

/-- Witness for the amended C3: at the concrete stores, the
file-exists-without-the-identifier case gives no failure entry, no conversion,
and the rewritten ledger row. -/
theorem convert_unknown_identifier_witness :
    "ds_7" ∉ (batch_convert_candidates_to_points storesDs ["ds_7"]).failed_ids ∧
    "ds_7" ∉ (batch_convert_candidates_to_points storesDs ["ds_7"]).removed_ids ∧
    ∀ row ∈ storesDs.ledger, row.qa_assistant_id = "ds_7" →
      { row with final_status := "Valid", action_taken := "Converted to Point" }
        ∈ (batch_convert_candidates_to_points storesDs ["ds_7"]).stores.ledger :=
  (convert_unknown_identifier storesDs ["ds_7"] "ds_7" (by decide)).2 [candDs0]
    rfl (by decide)

end EudrGis
